import Mathlib

/-!
Verification development for scripts/test-update-server.py: a local static
file server (Python, http.server.SimpleHTTPRequestHandler subclass) used to
test auto-update flows.  Strings are embedded as lists of characters
(`PStr`); the filesystem is an abstract map from absolute paths (component
lists) to entries; each Python function used by the script is modelled by a
Lean function of the same name where possible.
-/

namespace UpdateServer

/-- Python strings, embedded as lists of characters. -/
abbrev PStr := List Char

/-- Coerce a Lean string literal to the embedding. -/
def pstr (s : String) : PStr := s.toList

/-- Models Python str.isspace for the characters str.rstrip removes
(space, tab, newline, carriage return, vertical tab, form feed). -/
def isPySpace (c : Char) : Bool :=
  c == ' ' || c == '\t' || c == '\n' || c == '\r' || c == '\x0b' || c == '\x0c'

/-- Models Python str.rstrip(): remove trailing whitespace. -/
def rstrip (s : PStr) : PStr := (s.reverse.dropWhile isPySpace).reverse

/-- Models Python str.endswith("/"): the last character is a slash. -/
def endsWithSlash (s : PStr) : Bool := s.reverse.head? == some '/'

/-- Value of an ASCII hex digit, as used by percent-decoding. -/
def hexVal (c : Char) : Option Nat :=
  if '0' ≤ c ∧ c ≤ '9' then some (c.toNat - 48)
  else if 'a' ≤ c ∧ c ≤ 'f' then some (c.toNat - 87)
  else if 'A' ≤ c ∧ c ≤ 'F' then some (c.toNat - 55)
  else none

/-- Models urllib.parse.unquote at the character level: each valid %XX
escape becomes the character with code XX, invalid escapes are left as-is.
(Multi-byte UTF-8 escape sequences are out of scope of this model; on
ASCII data this matches CPython.) -/
def unquote : PStr → PStr
  | [] => []
  | ['%'] => ['%']
  | '%' :: [a] => '%' :: unquote [a]
  | '%' :: a :: b :: rest =>
    match hexVal a, hexVal b with
    | some ha, some hb => Char.ofNat (16 * ha + hb) :: unquote rest
    | _, _ => '%' :: unquote (a :: b :: rest)
  | c :: rest => c :: unquote rest

/-- Models Python str.split(sep) for a one-character separator:
"".split yields [""], separators delimit (possibly empty) fields. -/
def splitOnChar (sep : Char) : PStr → List PStr
  | [] => [[]]
  | c :: rest =>
    if c = sep then [] :: splitOnChar sep rest
    else
      match splitOnChar sep rest with
      | [] => [[c]]
      | w :: ws => (c :: w) :: ws

/-- One step of the component loop of posixpath.normpath: empty and "."
components are dropped; ".." is appended when the path is relative and
nothing precedes it (or a ".." precedes it), otherwise it pops the last
component; on an absolute path a leading ".." is discarded. -/
def normStep (absolute : Bool) (acc : List PStr) (comp : PStr) : List PStr :=
  if comp = [] ∨ comp = ['.'] then acc
  else if comp ≠ ['.', '.'] ∨ (absolute = false ∧ acc = []) ∨
      acc.reverse.head? = some ['.', '.'] then
    acc ++ [comp]
  else if acc = [] then acc
  else acc.dropLast

/-- Models the component computation of posixpath.normpath: fold the
normalisation step over the slash-separated components.  (The number of
initial slashes only affects how the result is re-joined, not which
components survive, so it is reduced to the Bool `absolute`.) -/
def normComps (absolute : Bool) (comps : List PStr) : List PStr :=
  comps.foldl (normStep absolute) []

/-- Result of translate_path: the surviving path components (to be joined
under the serving directory) and whether the request path had a trailing
slash (which Python appends to the translated path). -/
structure TransPath where
  words : List PStr
  trailing : Bool
deriving DecidableEq

/-- The query- and fragment-stripping at the start of translate_path:
path.split("?",1)[0].split("#",1)[0]. -/
def stripQF (path : PStr) : PStr :=
  (path.takeWhile (fun c => c != '?')).takeWhile (fun c => c != '#')

/-- Models SimpleHTTPRequestHandler.translate_path: strip query and
fragment, record the trailing slash, percent-decode, normalise with
posixpath.normpath, then keep only components that are plain names (not
empty, "." or ".."), to be joined under the serving directory. -/
def translate_path (path : PStr) : TransPath :=
  let p := stripQF path
  let trailing := endsWithSlash (rstrip p)
  let q := unquote p
  let absolute := q.head? == some '/'
  let comps := normComps absolute (splitOnChar '/' q)
  let words := comps.filter (fun w => !(w == [] || w == ['.'] || w == ['.', '.']))
  ⟨words, trailing⟩

/-- An entry of the abstract filesystem: a regular file with its byte
contents, or a directory. -/
inductive Entry where
  | file (content : List Nat)
  | dir
deriving DecidableEq

/-- The filesystem: a map from absolute paths (component lists) to
entries; `none` means the path does not exist. -/
abbrev FS := List PStr → Option Entry

/-- An HTTP response: status code, header block, body bytes. -/
structure Response where
  status : Nat
  headers : List (String × String)
  body : List Nat
deriving DecidableEq

/-- The three CORS headers added by the handler (source lines 29-31). -/
def corsHeaders : List (String × String) :=
  [("Access-Control-Allow-Origin", "*"),
   ("Access-Control-Allow-Methods", "GET, OPTIONS"),
   ("Access-Control-Allow-Headers", "*")]

/-- From source CORSRequestHandler.end_headers: append the three CORS
headers to the buffered header block before it is flushed. -/
def end_headers (hdrs : List (String × String)) : List (String × String) :=
  hdrs ++ corsHeaders

/-- Placeholder for the HTML body send_error generates for an error page
(its exact markup is not load-bearing for any claim). -/
def errorBody (code : Nat) : List Nat := (pstr (toString code)).map Char.toNat

/-- Models the HTTP response of BaseHTTPRequestHandler.send_error:
error status, headers flushed through the overridden end_headers, HTML
explain body.  send_error also has a logging side effect — a log_error
line followed by the access line, both through the overridden
log_message — modelled separately by sendErrorLines/requestLogLines. -/
def errorResponse (code : Nat) : Response :=
  ⟨code, end_headers [("Content-Type", "text/html;charset=utf-8")], errorBody code⟩

/-- Models the 200 file response of send_head: headers flushed through
the overridden end_headers, body streamed from the file. -/
def fileResponse (c : List Nat) : Response :=
  ⟨200, end_headers [("Content-Length", toString c.length)], c⟩

/-- Models the 301 redirect send_head issues for a directory requested
without a trailing slash. -/
def redirectResponse : Response :=
  ⟨301, end_headers [("Location", "")], []⟩

/-- Placeholder for the generated HTML directory listing of
list_directory (its exact markup is not load-bearing for any claim). -/
def listingBody (p : List PStr) : List Nat :=
  (p.foldl (fun acc w => acc ++ w) []).map Char.toNat

/-- Models list_directory: 200 response whose body is the generated
listing of the directory at path p. -/
def listingResponse (p : List PStr) : Response :=
  ⟨200, end_headers [("Content-Type", "text/html;charset=utf-8")], listingBody p⟩

/-- Models SimpleHTTPRequestHandler.send_head after path translation:
`p` is the translated path, `trailing` the trailing-slash flag of
translate_path (a trailing slash makes open() fail on a regular file),
`slash` whether the URL path itself ends in a slash (controls the
directory redirect).  Directories try index.html then index.htm, else the
generated listing; a missing path is a 404. -/
def resolveGET (fs : FS) (p : List PStr) (trailing slash : Bool) : Response :=
  match fs p with
  | some Entry.dir =>
    if slash = false then redirectResponse
    else
      match fs (p ++ [pstr "index.html"]) with
      | some (Entry.file c) => fileResponse c
      | _ =>
        match fs (p ++ [pstr "index.htm"]) with
        | some (Entry.file c) => fileResponse c
        | _ => listingResponse p
  | some (Entry.file c) => if trailing then errorResponse 404 else fileResponse c
  | none => errorResponse 404

/-- Whether the query- and fragment-stripped URL path ends with a slash
(the condition of send_head's directory redirect). -/
def dirSlash (path : PStr) : Bool := endsWithSlash (stripQF path)

/-- Models do_GET of the handler: translate the path under the serving
directory root and serve it. -/
def handleGET (fs : FS) (root : List PStr) (path : PStr) : Response :=
  resolveGET fs (root ++ (translate_path path).words) (translate_path path).trailing
    (dirSlash path)

/-- From source CORSRequestHandler.do_OPTIONS: send_response(200) then
end_headers(), so status 200, only the injected headers, empty body, and
no filesystem access. -/
def optionsResponse : Response := ⟨200, end_headers [], []⟩

/-- HTTP request methods the server can receive. -/
inductive Method where
  | GET
  | HEAD
  | OPTIONS
  | other (verb : String)
deriving DecidableEq

/-- Dispatch of BaseHTTPRequestHandler.handle_one_request to the do_*
methods of the handler: GET serves, HEAD is GET without a body, OPTIONS
is the source's do_OPTIONS, anything else is a 501 error. -/
def handleRequest (fs : FS) (root : List PStr) (m : Method) (path : PStr) : Response :=
  match m with
  | Method.GET => handleGET fs root path
  | Method.HEAD => { handleGET fs root path with body := [] }
  | Method.OPTIONS => optionsResponse
  | Method.other _ => errorResponse 501

/-- One HTTP request. -/
structure Request where
  method : Method
  path : PStr
deriving DecidableEq

/-- The serve_forever loop as observed by clients: each incoming request
is handled independently against the (read-only) filesystem. -/
def serverRun (fs : FS) (root : List PStr) (reqs : List Request) : List Response :=
  reqs.map (fun r => handleRequest fs root r.method r.path)

/-- Boolean prefix test: `leadsWith pre l` iff `pre` is an initial
segment of `l`. -/
def leadsWith [BEq α] : List α → List α → Bool
  | [], _ => true
  | _ :: _, [] => false
  | a :: as, b :: bs => a == b && leadsWith as bs

/-- Boolean substring test: `occurs sub l` iff `sub` appears contiguously
inside `l`. -/
def occurs [BEq α] (sub : List α) : List α → Bool
  | [] => leadsWith sub []
  | c :: rest => leadsWith sub (c :: rest) || occurs sub rest

/-- From source CORSRequestHandler.log_message: the printed line is the
fixed tag followed by the formatted message. -/
def log_message (msg : PStr) : PStr := pstr "[Update Server] " ++ msg

/-- Models BaseHTTPRequestHandler.log_message (the default the source
overrides): "address - - [timestamp] message". -/
def default_log_line (address timestamp msg : PStr) : PStr :=
  address ++ pstr " - - [" ++ timestamp ++ pstr "] " ++ msg

/-- Models BaseHTTPRequestHandler.log_request: the access-log message is
the quoted request line, the status code and the response size. -/
def log_request_msg (requestline : PStr) (code : Nat) (size : PStr) : PStr :=
  pstr "\x22" ++ requestline ++ pstr "\x22 " ++ pstr (toString code) ++ pstr " " ++ size

/-- The token of a method on the request line. -/
def methodToken : Method → PStr
  | Method.GET => pstr "GET"
  | Method.HEAD => pstr "HEAD"
  | Method.OPTIONS => pstr "OPTIONS"
  | Method.other v => pstr v

/-- The HTTP/1.1 request line of a request. -/
def requestLine (m : Method) (path : PStr) : PStr :=
  methodToken m ++ pstr " " ++ path ++ pstr " HTTP/1.1"

/-- The stdout line log_request produces through the overridden
log_message: send_response calls log_request(code), whose size argument
is always "-". -/
def accessLine (rl : PStr) (code : Nat) : PStr :=
  log_message (log_request_msg rl code (pstr "-"))

/-- The stdout line log_error produces through the overridden
log_message: send_error first calls log_error("code %d, message %s",
code, message), and log_error routes to log_message. -/
def errorLogLine (code : Nat) (message : PStr) : PStr :=
  log_message (pstr "code " ++ pstr (toString code) ++ pstr ", message " ++ message)

/-- Models the stdout lines of one send_error call: the log_error line
first, then (via send_response) the access-log line. -/
def sendErrorLines (rl : PStr) (code : Nat) (message : PStr) : List PStr :=
  [errorLogLine code message, accessLine rl code]

/-- Models the stdout lines send_head emits while producing its
response, branch for branch with resolveGET: the 404 branches go through
send_error(404, "File not found") and log two lines; every other branch
(file 200, directory redirect 301, index or listing 200) goes through
send_response only and logs the single access line. -/
def resolveGETLines (fs : FS) (p : List PStr) (trailing slash : Bool) (rl : PStr) : List PStr :=
  match fs p with
  | some Entry.dir =>
    if slash = false then [accessLine rl 301]
    else [accessLine rl 200]
  | some (Entry.file _) =>
    if trailing then sendErrorLines rl 404 (pstr "File not found")
    else [accessLine rl 200]
  | none => sendErrorLines rl 404 (pstr "File not found")

/-- Models all lines a handled request writes to standard output (the
print destination of the overridden log_message): GET and HEAD log
through send_head, do_OPTIONS logs its send_response(200), and an
unsupported method logs through send_error(501, "Unsupported method
(%r)"). -/
def requestLogLines (fs : FS) (root : List PStr) (m : Method) (path : PStr) : List PStr :=
  match m with
  | Method.OPTIONS => [accessLine (requestLine m path) 200]
  | Method.other v =>
    sendErrorLines (requestLine m path) 501
      (pstr "Unsupported method (\x27" ++ pstr v ++ pstr "\x27)")
  | _ =>
    resolveGETLines fs (root ++ (translate_path path).words) (translate_path path).trailing
      (dirSlash path) (requestLine m path)

/-- Models the numeric value of an ASCII decimal digit for int(). -/
def pyDigit (c : Char) : Option Nat :=
  if '0' ≤ c ∧ c ≤ '9' then some (c.toNat - 48) else none

/-- Digit accumulation of int() after the first digit: a single
underscore is allowed between digits, never doubled or trailing. -/
def parseDigitsAux (acc : Nat) : PStr → Option Nat
  | [] => some acc
  | '_' :: rest =>
    match rest with
    | c :: rest2 => (pyDigit c).bind (fun d => parseDigitsAux (acc * 10 + d) rest2)
    | [] => none
  | c :: rest => (pyDigit c).bind (fun d => parseDigitsAux (acc * 10 + d) rest)

/-- Digit run of int(): at least one digit, underscores only between
digits. -/
def parseDigits : PStr → Option Nat
  | [] => none
  | c :: rest => (pyDigit c).bind (fun d => parseDigitsAux d rest)

/-- Models Python str.strip(): remove leading and trailing whitespace. -/
def pyStrip (s : PStr) : PStr := rstrip ((rstrip s.reverse).reverse)

/-- Models Python int(str) for ASCII input: optional surrounding
whitespace, optional sign, then a base-10 digit run; anything else raises
ValueError, modelled as none. -/
def pyInt (s : PStr) : Option Int :=
  match pyStrip s with
  | '+' :: rest => (parseDigits rest).map (fun n => (n : Int))
  | '-' :: rest => (parseDigits rest).map (fun n => -(n : Int))
  | t => (parseDigits t).map (fun n => (n : Int))

/-- From source line 20: PORT = int(sys.argv[1]) if len(sys.argv) > 1
else 5000; this is evaluated at import time, before the __main__ block.
none models the uncaught ValueError of int(). -/
def computePORT (argv : List PStr) : Option Int :=
  if argv.length > 1 then pyInt (argv.getD 1 []) else some 5000

/-- The aspects of the outside world the startup sequence depends on:
whether ./dist-updates already exists, whether creating it would fail
(e.g. permission denied), whether binding the TCP socket on the chosen
port would fail (e.g. address in use), and the working directory (for the
abspath shown in the banner). -/
structure World where
  dirExists : Bool
  mkdirFails : Bool
  bindFails : Bool
  cwd : PStr
deriving DecidableEq

/-- Observable outcome of one run of the script: exit status, whether the
serving directory was ensured to exist, whether a listening socket was
ever bound, whether an error was reported (Python prints the traceback of
an uncaught exception), and the lines printed to standard output. -/
structure Outcome where
  exitCode : Nat
  dirEnsured : Bool
  socketBound : Bool
  errorReported : Bool
  stdoutLines : List PStr
deriving DecidableEq

/-- The banner printed after a successful bind (source lines 47-56). -/
def banner (port : Int) (absDir : PStr) : List PStr :=
  [List.replicate 60 '=',
   pstr "Electron Update Server Running",
   List.replicate 60 '=',
   pstr "URL: http://localhost:" ++ pstr (toString port),
   pstr "Directory: " ++ absDir,
   List.replicate 60 '=',
   pstr "\nPlace your update files in ./dist-updates/:",
   pstr "  - latest.yml",
   pstr "  - electron-ai-starter-X.X.X-setup.exe",
   pstr "\nPress Ctrl+C to stop the server\n"]

/-- Models the whole script run (module level plus the __main__ block):
first PORT is computed (an invalid argument raises ValueError and the
interpreter exits with status 1 before anything else happens); then
os.makedirs(DIRECTORY, exist_ok=True) ensures the serving directory
(raising only if it is absent and cannot be created); then
socketserver.TCPServer binds the socket (raising on failure); then the
banner is printed and serve_forever runs until KeyboardInterrupt, which
is caught, prints the shutdown notice and exits with status 0. -/
def pyMain (argv : List PStr) (w : World) : Outcome :=
  match computePORT argv with
  | none => ⟨1, false, false, true, []⟩
  | some port =>
    if w.dirExists = false ∧ w.mkdirFails = true then ⟨1, false, false, true, []⟩
    else if w.bindFails = true then ⟨1, true, false, true, []⟩
    else
      ⟨0, true, true, false,
        banner port (w.cwd ++ pstr "/dist-updates") ++ [pstr "\n\nServer stopped."]⟩

/-- Modelled from the spec: the naive resolution of a request path
against the root, in which a ".." component ascends to the parent
directory — this is what "traversal sequences resolving outside the
serving directory" refers to.  It is deliberately NOT the resolution the
code performs; it is compared against it. -/
def specResolve (root : List PStr) (path : PStr) : List PStr :=
  (splitOnChar '/' path).foldl
    (fun acc comp =>
      if comp = [] ∨ comp = ['.'] then acc
      else if comp = ['.', '.'] then acc.dropLast
      else acc ++ [comp]) root

/-- Concrete example: byte contents of the example file latest.yml. -/
def exContent : List Nat := [118, 49, 46, 50, 46, 51, 10]

/-- Concrete example serving root (the dist-updates directory). -/
def exRoot : List PStr := [pstr "dist-updates"]

/-- Concrete example filesystem: the serving directory containing the
single regular file latest.yml. -/
def exampleFS : FS := fun p =>
  if p = [pstr "dist-updates"] then some Entry.dir
  else if p = [pstr "dist-updates", pstr "latest.yml"] then some (Entry.file exContent)
  else none

/-- A filename that URL resolution passes through unchanged: nonempty,
not "." or "..", free of the separator and of the query, fragment and
escape characters, and not ending in whitespace (so the trailing-slash
test of translate_path is unaffected).  These are the names for which a
request line "GET /f" is well-formed without URL-encoding. -/
def plainName (f : PStr) : Bool :=
  f != [] && f != ['.'] && f != ['.', '.'] &&
  f.all (fun c => c != '/' && c != '?' && c != '#' && c != '%') &&
  !(isPySpace (f.reverse.headD ' '))

/-- Characterisation of unquote on escape-free input. -/
theorem unquote_id {s : PStr} (h : ∀ c ∈ s, c ≠ '%') : unquote s = s := by
  induction s with
  | nil => rfl
  | cons c rest ih =>
    have hc : c ≠ '%' := h c (List.mem_cons_self c rest)
    have := ih (fun x hx => h x (List.mem_cons_of_mem c hx))
    simp [unquote, hc, this]

/-- Characterisation of splitOnChar on separator-free input. -/
theorem splitOnChar_id {sep : Char} {s : PStr} (h : ∀ c ∈ s, c ≠ sep) :
    splitOnChar sep s = [s] := by
  induction s with
  | nil => rfl
  | cons c rest ih =>
    have hc : c ≠ sep := h c (List.mem_cons_self c rest)
    have := ih (fun x hx => h x (List.mem_cons_of_mem c hx))
    simp [splitOnChar, hc, this]

/-- Query- and fragment-stripping leaves a clean path unchanged. -/
theorem stripQF_plain {f : PStr} (hq : ∀ c ∈ f, c ≠ '?') (hh : ∀ c ∈ f, c ≠ '#') :
    stripQF ('/' :: f) = '/' :: f := by
  unfold stripQF
  have h1 : (('/' :: f).takeWhile (fun c => c != '?')) = '/' :: f := by
    apply List.takeWhile_eq_self_iff.mpr
    intro c hc
    rcases List.mem_cons.mp hc with h | h
    · subst h; decide
    · simp [bne_iff_ne]; exact hq c h
  rw [h1]
  apply List.takeWhile_eq_self_iff.mpr
  intro c hc
  rcases List.mem_cons.mp hc with h | h
  · subst h; decide
  · simp [bne_iff_ne]; exact hh c h

/-- A path "/f" with a slash-free nonempty f does not end in a slash. -/
theorem endsWithSlash_plain {f : PStr} (hne : f ≠ []) (hsl : ∀ c ∈ f, c ≠ '/') :
    endsWithSlash ('/' :: f) = false := by
  unfold endsWithSlash
  rw [List.reverse_cons]
  rcases hf : f.reverse with _ | ⟨c, t⟩
  · exact absurd (by simpa using congrArg List.reverse hf) hne
  · have hcf : c ∈ f := by
      have : c ∈ f.reverse := by rw [hf]; exact List.mem_cons_self c t
      simpa using this
    simp [hsl c hcf]

/-- rstrip leaves a path unchanged when its final character is not
whitespace. -/
theorem rstrip_plain {f : PStr} (hne : f ≠ []) (hws : isPySpace (f.reverse.headD ' ') = false) :
    rstrip ('/' :: f) = '/' :: f := by
  unfold rstrip
  rw [List.reverse_cons]
  rcases hf : f.reverse with _ | ⟨c, t⟩
  · exact absurd (by simpa using congrArg List.reverse hf) hne
  · have hcw : isPySpace c = false := by rw [hf] at hws; simpa using hws
    rw [List.cons_append, List.dropWhile_cons, hcw]
    simp only [Bool.false_eq_true, if_false]
    rw [← List.cons_append, ← hf, ← List.reverse_cons, List.reverse_reverse]

/-- Path translation of a plain filename: "GET /f" resolves to the single
component f directly under the serving directory, with no trailing
slash. -/
theorem translate_path_plain {f : PStr} (h : plainName f = true) :
    translate_path ('/' :: f) = ⟨[f], false⟩ := by
  simp only [plainName, Bool.and_eq_true, bne_iff_ne, ne_eq, List.all_eq_true,
    Bool.not_eq_true'] at h
  obtain ⟨⟨⟨⟨hne, hdot⟩, hdotdot⟩, hchars⟩, hws⟩ := h
  have hsl : ∀ c ∈ f, c ≠ '/' := fun c hc => by
    have := hchars c hc; simp [Bool.and_eq_true, bne_iff_ne] at this; exact this.1.1.1
  have hq : ∀ c ∈ f, c ≠ '?' := fun c hc => by
    have := hchars c hc; simp [Bool.and_eq_true, bne_iff_ne] at this; exact this.1.1.2
  have hhash : ∀ c ∈ f, c ≠ '#' := fun c hc => by
    have := hchars c hc; simp [Bool.and_eq_true, bne_iff_ne] at this; exact this.1.2
  have hpct : ∀ c ∈ f, c ≠ '%' := fun c hc => by
    have := hchars c hc; simp [Bool.and_eq_true, bne_iff_ne] at this; exact this.2
  have hstrip : stripQF ('/' :: f) = '/' :: f := stripQF_plain hq hhash
  have htrail : endsWithSlash (rstrip ('/' :: f)) = false := by
    rw [rstrip_plain hne hws]; exact endsWithSlash_plain hne hsl
  have hunq : unquote ('/' :: f) = '/' :: f := by
    apply unquote_id
    intro c hc
    rcases List.mem_cons.mp hc with h | h
    · subst h; decide
    · exact hpct c h
  have hsplit : splitOnChar '/' ('/' :: f) = [[], f] := by
    simp [splitOnChar, splitOnChar_id hsl]
  have hnorm : normComps true [[], f] = [f] := by
    simp [normComps, normStep, hne, hdot, Or.inl hdotdot]
  simp only [translate_path, hstrip, htrail, hunq, hsplit, List.head?_cons,
    beq_self_eq_true, hnorm]
  simp [hne, hdot, hdotdot]

/-- The directory-redirect test is negative for a plain filename
request. -/
theorem dirSlash_plain {f : PStr} (h : plainName f = true) :
    dirSlash ('/' :: f) = false := by
  simp only [plainName, Bool.and_eq_true, bne_iff_ne, ne_eq, List.all_eq_true,
    Bool.not_eq_true'] at h
  obtain ⟨⟨⟨⟨hne, hdot⟩, hdotdot⟩, hchars⟩, hws⟩ := h
  have hsl : ∀ c ∈ f, c ≠ '/' := fun c hc => by
    have := hchars c hc; simp [Bool.and_eq_true, bne_iff_ne] at this; exact this.1.1.1
  have hq : ∀ c ∈ f, c ≠ '?' := fun c hc => by
    have := hchars c hc; simp [Bool.and_eq_true, bne_iff_ne] at this; exact this.1.1.2
  have hhash : ∀ c ∈ f, c ≠ '#' := fun c hc => by
    have := hchars c hc; simp [Bool.and_eq_true, bne_iff_ne] at this; exact this.1.2
  unfold dirSlash
  rw [stripQF_plain hq hhash]
  exact endsWithSlash_plain hne hsl

/-- A list is an initial segment of itself extended by anything. -/
theorem leadsWith_append [BEq α] [LawfulBEq α] (l t : List α) : leadsWith l (l ++ t) = true := by
  induction l with
  | nil => rfl
  | cons a as ih => simp [leadsWith, ih]

/-- An initial segment occurs as a substring. -/
theorem occurs_of_leadsWith [BEq α] (sub l : List α) (h : leadsWith sub l = true) :
    occurs sub l = true := by
  cases l with
  | nil => simpa [occurs] using h
  | cons c rest => simp [occurs, h]

/-- A list occurs as a substring of any surrounding concatenation. -/
theorem occurs_parts [BEq α] [LawfulBEq α] (a sub b : List α) :
    occurs sub (a ++ (sub ++ b)) = true := by
  induction a with
  | nil => exact occurs_of_leadsWith _ _ (leadsWith_append sub b)
  | cons c cs ih => simp [occurs, ih]

/-- Every branch of send_head flushes its headers through the overridden
end_headers, so every header block ends with the CORS headers. -/
theorem resolveGET_shape (fs : FS) (p : List PStr) (t s : Bool) :
    ∃ l, (resolveGET fs p t s).headers = l ++ corsHeaders := by
  unfold resolveGET
  repeat' split
  all_goals exact ⟨_, rfl⟩

/-- Every response of the handler, for every method, has a header block
ending with the CORS headers. -/
theorem handleRequest_shape (fs : FS) (root : List PStr) (m : Method) (path : PStr) :
    ∃ l, (handleRequest fs root m path).headers = l ++ corsHeaders := by
  cases m with
  | GET => exact resolveGET_shape fs _ _ _
  | HEAD => exact resolveGET_shape fs _ _ _
  | OPTIONS => exact ⟨_, rfl⟩
  | other v => exact ⟨_, rfl⟩

/-- Safety of send_head: every 200 body is either the contents of a file
at the resolved path or one of its index files, or the listing of the
directory at the resolved path — never data from any other path. -/
theorem resolveGET_safety (fs : FS) (p : List PStr) (t s : Bool)
    (h : (resolveGET fs p t s).status = 200) :
    ∃ rest, fs (p ++ rest) = some (Entry.file ((resolveGET fs p t s).body)) ∨
      (rest = [] ∧ fs (p ++ rest) = some Entry.dir) := by
  rcases hfs : fs p with _ | e
  · simp [resolveGET, hfs, errorResponse] at h
  · cases e with
    | file c =>
      cases t with
      | true => simp [resolveGET, hfs, errorResponse] at h
      | false =>
        refine ⟨[], Or.inl ?_⟩
        simp [resolveGET, hfs, fileResponse]
    | dir =>
      by_cases hs : s = false
      · simp [resolveGET, hfs, hs, redirectResponse] at h
      · rcases h1 : fs (p ++ [pstr "index.html"]) with _ | e1
        · rcases h2 : fs (p ++ [pstr "index.htm"]) with _ | e2
          · refine ⟨[], Or.inr ⟨rfl, ?_⟩⟩
            simpa using hfs
          · cases e2 with
            | file c2 =>
              refine ⟨[pstr "index.htm"], Or.inl ?_⟩
              simp [resolveGET, hfs, hs, h1, h2, fileResponse]
            | dir =>
              refine ⟨[], Or.inr ⟨rfl, ?_⟩⟩
              simpa using hfs
        · cases e1 with
          | file c1 =>
            refine ⟨[pstr "index.html"], Or.inl ?_⟩
            simp [resolveGET, hfs, hs, h1, fileResponse]
          | dir =>
            rcases h2 : fs (p ++ [pstr "index.htm"]) with _ | e2
            · refine ⟨[], Or.inr ⟨rfl, ?_⟩⟩
              simpa using hfs
            · cases e2 with
              | file c2 =>
                refine ⟨[pstr "index.htm"], Or.inl ?_⟩
                simp [resolveGET, hfs, hs, h1, h2, fileResponse]
              | dir =>
                refine ⟨[], Or.inr ⟨rfl, ?_⟩⟩
                simpa using hfs

/-- C1: for every HTTP response the server sends — any method (GET,
OPTIONS, HEAD, even unsupported ones), any filesystem state, any path,
hence any status code including 404 — the header block contains the
three CORS headers Access-Control-Allow-Origin: *,
Access-Control-Allow-Methods: GET, OPTIONS and
Access-Control-Allow-Headers: *. -/
theorem c1_cors (fs : FS) (root : List PStr) (m : Method) (path : PStr) :
    ("Access-Control-Allow-Origin", "*") ∈ (handleRequest fs root m path).headers ∧
    ("Access-Control-Allow-Methods", "GET, OPTIONS") ∈ (handleRequest fs root m path).headers ∧
    ("Access-Control-Allow-Headers", "*") ∈ (handleRequest fs root m path).headers := by
  obtain ⟨l, hl⟩ := handleRequest_shape fs root m path
  rw [hl]
  refine ⟨?_, ?_, ?_⟩ <;> exact List.mem_append_right l (by simp [corsHeaders])

/-- C2 counterexample: the request path "/../latest.yml" contains a
traversal sequence whose naive resolution escapes the serving root, yet
the server answers 200 with the contents of the in-root file latest.yml
(the ".." is silently discarded), not a 404 rejection. -/
theorem c2_cex :
    leadsWith exRoot (specResolve exRoot (pstr "/../latest.yml")) = false ∧
    (handleRequest exampleFS exRoot Method.GET (pstr "/../latest.yml")).status = 200 ∧
    (handleRequest exampleFS exRoot Method.GET (pstr "/../latest.yml")).body = exContent := by
  refine ⟨by decide, by decide, by decide⟩

/-- C2 amended: for every request (any method, any path, traversal
sequences included) the server never returns the contents of any file
outside the serving root: every 200 response body is empty or originates
from an entry whose path extends the root. -/
theorem c2_amended (fs : FS) (root : List PStr) (m : Method) (path : PStr)
    (h : (handleRequest fs root m path).status = 200) :
    (handleRequest fs root m path).body = [] ∨
    ∃ q, leadsWith root q = true ∧
      (fs q = some (Entry.file ((handleRequest fs root m path).body)) ∨
       fs q = some Entry.dir) := by
  cases m with
  | GET =>
    obtain ⟨rest, hr⟩ := resolveGET_safety fs (root ++ (translate_path path).words)
      (translate_path path).trailing (dirSlash path) h
    refine Or.inr ⟨root ++ ((translate_path path).words ++ rest), leadsWith_append _ _, ?_⟩
    rw [← List.append_assoc]
    rcases hr with hr | ⟨_, hr⟩
    · exact Or.inl hr
    · exact Or.inr hr
  | HEAD => exact Or.inl rfl
  | OPTIONS => exact Or.inl rfl
  | other v => simp [handleRequest, errorResponse] at h

/-- Witness for C2 amended at a concrete input with a 200 response. -/
theorem c2_amended_witness :
    (handleRequest exampleFS exRoot Method.GET (pstr "/latest.yml")).body = [] ∨
    ∃ q, leadsWith exRoot q = true ∧
      (exampleFS q =
        some (Entry.file ((handleRequest exampleFS exRoot Method.GET (pstr "/latest.yml")).body)) ∨
       exampleFS q = some Entry.dir) :=
  c2_amended exampleFS exRoot Method.GET (pstr "/latest.yml") (by decide)

/-- C3: an OPTIONS request to any path receives status 200 with an empty
body, and the response is a constant — independent of the filesystem
(no filesystem access) and of the path. -/
theorem c3_options (fs fs2 : FS) (root root2 : List PStr) (path path2 : PStr) :
    (handleRequest fs root Method.OPTIONS path).status = 200 ∧
    (handleRequest fs root Method.OPTIONS path).body = [] ∧
    handleRequest fs root Method.OPTIONS path = handleRequest fs2 root2 Method.OPTIONS path2 :=
  ⟨rfl, rfl, rfl⟩

/-- C4: for every regular file f under the serving root, GET /f returns
status 200 with a body byte-for-byte identical to the file contents. -/
theorem c4_get_file (fs : FS) (root : List PStr) (f : PStr) (c : List Nat)
    (h1 : plainName f = true) (h2 : fs (root ++ [f]) = some (Entry.file c)) :
    (handleRequest fs root Method.GET ('/' :: f)).status = 200 ∧
    (handleRequest fs root Method.GET ('/' :: f)).body = c := by
  have ht := translate_path_plain h1
  have hds := dirSlash_plain h1
  simp [handleRequest, handleGET, ht, hds, resolveGET, h2, fileResponse]

/-- Witness for C4: GET /latest.yml on the example filesystem. -/
theorem c4_witness :
    (handleRequest exampleFS exRoot Method.GET ('/' :: pstr "latest.yml")).status = 200 ∧
    (handleRequest exampleFS exRoot Method.GET ('/' :: pstr "latest.yml")).body = exContent :=
  c4_get_file exampleFS exRoot (pstr "latest.yml") exContent (by decide) (by decide)

/-- C5: a GET for a path that does not exist under the serving directory
returns status 404, and the failed request does not affect the handling
of any subsequent request (the server keeps serving). -/
theorem c5_missing (fs : FS) (root : List PStr) (path : PStr)
    (h : fs (root ++ (translate_path path).words) = none) :
    (handleRequest fs root Method.GET path).status = 404 ∧
    ∀ reqs, serverRun fs root (⟨Method.GET, path⟩ :: reqs) =
      handleRequest fs root Method.GET path :: serverRun fs root reqs := by
  constructor
  · simp [handleRequest, handleGET, resolveGET, h, errorResponse]
  · intro reqs; rfl

/-- Witness for C5: GET /missing.bin on the example filesystem. -/
theorem c5_witness :
    (handleRequest exampleFS exRoot Method.GET (pstr "/missing.bin")).status = 404 ∧
    serverRun exampleFS exRoot [⟨Method.GET, pstr "/missing.bin"⟩] =
      [handleRequest exampleFS exRoot Method.GET (pstr "/missing.bin")] :=
  ⟨(c5_missing exampleFS exRoot (pstr "/missing.bin") (by decide)).1,
   (c5_missing exampleFS exRoot (pstr "/missing.bin") (by decide)).2 []⟩

/-- Every line the overridden log_message prints starts with the fixed
prefix tag. -/
theorem log_message_prefix (x : PStr) :
    leadsWith (pstr "[Update Server] ") (log_message x) = true :=
  leadsWith_append _ _

/-- The log lines of send_head, branch for branch: every line carries
the prefix tag, the last line is always the access line with the
response's status code, and there are two lines exactly for the
send_error (404) branches, one otherwise. -/
theorem resolveGETLines_spec (fs : FS) (p : List PStr) (t s : Bool) (rl : PStr) :
    (∀ l ∈ resolveGETLines fs p t s rl, leadsWith (pstr "[Update Server] ") l = true) ∧
    (resolveGETLines fs p t s rl).getLast? =
      some (accessLine rl (resolveGET fs p t s).status) ∧
    (resolveGETLines fs p t s rl).length =
      (if (resolveGET fs p t s).status = 404 ∨ (resolveGET fs p t s).status = 501
       then 2 else 1) := by
  rcases hfs : fs p with _ | e
  · simp [resolveGETLines, resolveGET, hfs, sendErrorLines, errorResponse, errorLogLine,
      accessLine, log_message_prefix]
  · cases e with
    | file c =>
      cases t with
      | true =>
        simp [resolveGETLines, resolveGET, hfs, sendErrorLines, errorResponse, errorLogLine,
          accessLine, log_message_prefix]
      | false =>
        simp [resolveGETLines, resolveGET, hfs, fileResponse, accessLine, log_message_prefix]
    | dir =>
      by_cases hs : s = false
      · simp [resolveGETLines, resolveGET, hfs, hs, redirectResponse, accessLine,
          log_message_prefix]
      · have hs2 : s = true := by
          cases s
          · exact absurd rfl hs
          · rfl
        subst hs2
        have hst : (resolveGET fs p t true).status = 200 := by
          rcases h1 : fs (p ++ [pstr "index.html"]) with _ | e1
          · rcases h2 : fs (p ++ [pstr "index.htm"]) with _ | e2
            · simp [resolveGET, hfs, hs, h1, h2, listingResponse]
            · cases e2 <;> simp [resolveGET, hfs, hs, h1, h2, fileResponse, listingResponse]
          · cases e1 with
            | file c1 => simp [resolveGET, hfs, hs, h1, fileResponse]
            | dir =>
              rcases h2 : fs (p ++ [pstr "index.htm"]) with _ | e2
              · simp [resolveGET, hfs, hs, h1, h2, listingResponse]
              · cases e2 <;> simp [resolveGET, hfs, hs, h1, h2, fileResponse, listingResponse]
        simp [resolveGETLines, hfs, hst, accessLine, log_message_prefix]

/-- C6 counterexample: the overridden log line for a handled request
contains neither the client address nor the timestamp, although the
default access log line for the same request contains both; moreover a
handled GET of a missing file writes two prefixed stdout lines (the
log_error line of send_error, then the access line), not exactly one —
so the claim fails on both counts. -/
theorem c6_cex :
    occurs (pstr "192.168.0.7")
      (log_message (log_request_msg (pstr "GET /latest.yml HTTP/1.1") 200 (pstr "-"))) = false ∧
    occurs (pstr "12/Oct/2026")
      (log_message (log_request_msg (pstr "GET /latest.yml HTTP/1.1") 200 (pstr "-"))) = false ∧
    occurs (pstr "192.168.0.7")
      (default_log_line (pstr "192.168.0.7") (pstr "12/Oct/2026 10:00:00")
        (log_request_msg (pstr "GET /latest.yml HTTP/1.1") 200 (pstr "-"))) = true ∧
    occurs (pstr "12/Oct/2026")
      (default_log_line (pstr "192.168.0.7") (pstr "12/Oct/2026 10:00:00")
        (log_request_msg (pstr "GET /latest.yml HTTP/1.1") 200 (pstr "-"))) = true ∧
    requestLogLines exampleFS exRoot Method.GET (pstr "/missing.bin") =
      [log_message (pstr "code 404, message File not found"),
       log_message (log_request_msg (pstr "GET /missing.bin HTTP/1.1") 404 (pstr "-"))] := by
  refine ⟨by decide, by decide, by decide, by decide, by decide⟩

/-- C6 amended: every stdout line a handled request writes begins with
the fixed prefix tag; the last line is always the access line, which
carries the request line and the status code (but not the client
address or timestamp of the default access log); and the request writes
exactly one line, except that a request answered through send_error
(status 404 or 501) writes an additional prefixed log_error line before
the access line, for two lines in total. -/
theorem c6_amended (fs : FS) (root : List PStr) (m : Method) (path : PStr) :
    (∀ l ∈ requestLogLines fs root m path, leadsWith (pstr "[Update Server] ") l = true) ∧
    (requestLogLines fs root m path).getLast? =
      some (accessLine (requestLine m path) (handleRequest fs root m path).status) ∧
    (requestLogLines fs root m path).length =
      (if (handleRequest fs root m path).status = 404 ∨
          (handleRequest fs root m path).status = 501 then 2 else 1) ∧
    occurs (requestLine m path)
      (accessLine (requestLine m path) (handleRequest fs root m path).status) = true ∧
    occurs (pstr (toString (handleRequest fs root m path).status))
      (accessLine (requestLine m path) (handleRequest fs root m path).status) = true := by
  have hocc : ∀ (rl : PStr) (code : Nat),
      occurs rl (accessLine rl code) = true ∧
      occurs (pstr (toString code)) (accessLine rl code) = true := by
    intro rl code
    constructor
    · have := occurs_parts (pstr "[Update Server] " ++ pstr "\x22") rl
        (pstr "\x22 " ++ pstr (toString code) ++ pstr " " ++ pstr "-")
      simpa [accessLine, log_message, log_request_msg, List.append_assoc] using this
    · have := occurs_parts (pstr "[Update Server] " ++ pstr "\x22" ++ rl ++ pstr "\x22 ")
        (pstr (toString code)) (pstr " " ++ pstr "-")
      simpa [accessLine, log_message, log_request_msg, List.append_assoc] using this
  cases m with
  | GET =>
    have h := resolveGETLines_spec fs (root ++ (translate_path path).words)
      (translate_path path).trailing (dirSlash path) (requestLine Method.GET path)
    exact ⟨h.1, h.2.1, h.2.2, (hocc _ _).1, (hocc _ _).2⟩
  | HEAD =>
    have h := resolveGETLines_spec fs (root ++ (translate_path path).words)
      (translate_path path).trailing (dirSlash path) (requestLine Method.HEAD path)
    exact ⟨h.1, h.2.1, h.2.2, (hocc _ _).1, (hocc _ _).2⟩
  | OPTIONS =>
    refine ⟨?_, rfl, by simp [requestLogLines, handleRequest, optionsResponse],
      (hocc _ _).1, (hocc _ _).2⟩
    simp [requestLogLines, accessLine, log_message_prefix]
  | other v =>
    refine ⟨?_, rfl, by simp [requestLogLines, handleRequest, errorResponse, sendErrorLines],
      (hocc _ _).1, (hocc _ _).2⟩
    simp [requestLogLines, sendErrorLines, accessLine, errorLogLine, log_message_prefix]

/-- C7: startup ensures the serving directory exists before binding: if
creation is possible (or the directory exists) it is ensured and the
socket is bound exactly when binding succeeds; if the directory is
absent and cannot be created the process reports the error and exits
non-zero with no socket ever bound. -/
theorem c7_dir (argv : List PStr) (w : World) (port : Int)
    (hp : computePORT argv = some port) :
    ((w.mkdirFails = false ∨ w.dirExists = true) →
      (pyMain argv w).dirEnsured = true ∧
      ((pyMain argv w).socketBound = true ↔ w.bindFails = false)) ∧
    (w.dirExists = false → w.mkdirFails = true →
      (pyMain argv w).exitCode ≠ 0 ∧ (pyMain argv w).socketBound = false ∧
      (pyMain argv w).errorReported = true) := by
  rcases w with ⟨de, mf, bf, cwd⟩
  simp only [pyMain, hp]
  cases de <;> cases mf <;> cases bf <;> simp

/-- Witness for C7 at a concrete world with an absent but creatable
directory. -/
theorem c7_witness :
    ((false = false ∨ false = true) →
      (pyMain [pstr "prog"] ⟨false, false, false, pstr "/cwd"⟩).dirEnsured = true ∧
      ((pyMain [pstr "prog"] ⟨false, false, false, pstr "/cwd"⟩).socketBound = true ↔
        false = false)) ∧
    (false = false → false = true →
      (pyMain [pstr "prog"] ⟨false, false, false, pstr "/cwd"⟩).exitCode ≠ 0 ∧
      (pyMain [pstr "prog"] ⟨false, false, false, pstr "/cwd"⟩).socketBound = false ∧
      (pyMain [pstr "prog"] ⟨false, false, false, pstr "/cwd"⟩).errorReported = true) :=
  c7_dir [pstr "prog"] ⟨false, false, false, pstr "/cwd"⟩ 5000 (by decide)

/-- C8: if the TCP socket cannot be bound, startup is fatal — the error
is reported, the process exits non-zero, and no listening socket ever
exists. -/
theorem c8_bind (argv : List PStr) (w : World) (port : Int)
    (hp : computePORT argv = some port) (hb : w.bindFails = true) :
    (pyMain argv w).socketBound = false ∧ (pyMain argv w).exitCode ≠ 0 ∧
    (pyMain argv w).errorReported = true := by
  rcases w with ⟨de, mf, bf, cwd⟩
  simp only at hb
  subst hb
  simp only [pyMain, hp]
  cases de <;> cases mf <;> simp

/-- Witness for C8 at a concrete world whose port is already in use. -/
theorem c8_witness :
    (pyMain [pstr "prog", pstr "8080"] ⟨true, false, true, pstr "/cwd"⟩).socketBound = false ∧
    (pyMain [pstr "prog", pstr "8080"] ⟨true, false, true, pstr "/cwd"⟩).exitCode ≠ 0 ∧
    (pyMain [pstr "prog", pstr "8080"] ⟨true, false, true, pstr "/cwd"⟩).errorReported = true :=
  c8_bind [pstr "prog", pstr "8080"] ⟨true, false, true, pstr "/cwd"⟩ 8080 (by decide) rfl

/-- C9: when the serving process is interrupted it prints the shutdown
notice as its last line of standard output and exits with status 0, with
no error reported. -/
theorem c9_interrupt (argv : List PStr) (w : World) (port : Int)
    (hp : computePORT argv = some port)
    (hd : w.dirExists = true ∨ w.mkdirFails = false) (hb : w.bindFails = false) :
    (pyMain argv w).exitCode = 0 ∧
    (pyMain argv w).stdoutLines.getLast? = some (pstr "\n\nServer stopped.") ∧
    (pyMain argv w).errorReported = false := by
  rcases w with ⟨de, mf, bf, cwd⟩
  simp only at hd hb
  subst hb
  simp only [pyMain, hp]
  rcases hd with hd | hd
  · subst hd
    cases mf <;> simp [List.getLast?_concat]
  · subst hd
    cases de <;> simp [List.getLast?_concat]

/-- Witness for C9 at a concrete successful startup. -/
theorem c9_witness :
    (pyMain [pstr "prog"] ⟨true, false, false, pstr "/cwd"⟩).exitCode = 0 ∧
    (pyMain [pstr "prog"] ⟨true, false, false, pstr "/cwd"⟩).stdoutLines.getLast? =
      some (pstr "\n\nServer stopped.") ∧
    (pyMain [pstr "prog"] ⟨true, false, false, pstr "/cwd"⟩).errorReported = false :=
  c9_interrupt [pstr "prog"] ⟨true, false, false, pstr "/cwd"⟩ 5000 (by decide) (Or.inl rfl) rfl

/-- C10: if the first command-line argument is present but not a valid
integer literal, the process exits non-zero before any side effect —
the serving directory is not created and no socket is bound, because the
port is parsed at import time, before the __main__ block runs. -/
theorem c10_bad_port (argv : List PStr) (w : World)
    (h1 : argv.length > 1) (h2 : pyInt (argv.getD 1 []) = none) :
    (pyMain argv w).exitCode ≠ 0 ∧ (pyMain argv w).dirEnsured = false ∧
    (pyMain argv w).socketBound = false := by
  have hp : computePORT argv = none := by
    unfold computePORT
    rw [if_pos h1]
    exact h2
  simp [pyMain, hp]

/-- Witness for C10 with the non-numeric argument "abc". -/
theorem c10_witness :
    (pyMain [pstr "prog", pstr "abc"] ⟨false, false, false, pstr "/cwd"⟩).exitCode ≠ 0 ∧
    (pyMain [pstr "prog", pstr "abc"] ⟨false, false, false, pstr "/cwd"⟩).dirEnsured = false ∧
    (pyMain [pstr "prog", pstr "abc"] ⟨false, false, false, pstr "/cwd"⟩).socketBound = false :=
  c10_bad_port [pstr "prog", pstr "abc"] ⟨false, false, false, pstr "/cwd"⟩ (by decide) (by decide)

end UpdateServer
